import Mathlib

/-!
Shallow embedding of the clip discovery and download pipeline of the
twitch-clip-helper repository (src/downloader: constants.py, utils.py,
web_scraper.py, downloader.py, processing.py), together with theorems
settling the behavioural claims about it.

Strings are modelled as lists of characters where character-level regex
matching is needed, and as Lean String values elsewhere.  Percentages in
the progress throttle are modelled as exact rationals.
-/

namespace TwitchClipHelper

/-- Whether the pattern (first argument) is an initial segment of the text
(second argument).  Used to model literal matching inside the specialised
re.findall below and inside str.replace. -/
def litMatch : List Char → List Char → Bool
  | [], _ => true
  | _ :: _, [] => false
  | p :: ps, c :: cs => p == c && litMatch ps cs

/-- Python str.replace on lists of characters: replaces every
non-overlapping occurrence of old by new, scanning left to right.  The
source calls it only with the one-character pattern of an ampersand
(web_scraper.py line 24); an empty pattern is treated as the identity
here since that case never occurs in the source.  The recursion is driven
by a fuel argument so that the definition is structurally recursive and
kernel-computable; every step consumes at least one character, so the
initial fuel chosen in pyReplace is never exhausted (the theorem
pyReplaceAux_fuel below proves the result does not depend on it). -/
def pyReplaceAux (old new : List Char) : Nat → List Char → List Char
  | 0, s => s
  | _ + 1, [] => []
  | fuel + 1, c :: rest =>
    if old ≠ [] ∧ litMatch old (c :: rest) = true then
      new ++ pyReplaceAux old new fuel ((c :: rest).drop old.length)
    else
      c :: pyReplaceAux old new fuel rest

/-- Python str.replace s.replace(old, new), on character lists. -/
def pyReplace (s old new : List Char) : List Char := pyReplaceAux old new s.length s

/-- The literal prefix of CLIP_URL_REGEX_PATTERN from constants.py line 16:
the pattern is raw data-litebox=".*?clip=([^"]+)" and this is the opening
literal up to and including the quote. -/
def LITEBOX_LIT : List Char :=
  ['d', 'a', 't', 'a', '-', 'l', 'i', 't', 'e', 'b', 'o', 'x', '=', '"']

/-- The inner literal of CLIP_URL_REGEX_PATTERN that precedes the capture
group. -/
def CLIP_LIT : List Char := ['c', 'l', 'i', 'p', '=']

/-- TWITCH_CLIP_BASE_URL from constants.py line 15, as characters. -/
def TWITCH_CLIP_BASE_URL : List Char := "https://clips.twitch.tv/".toList

/-- One attempted match of the tail of CLIP_URL_REGEX_PATTERN, starting
just after the literal modelled by LITEBOX_LIT.  The lazy .*? scans
forward over non-newline characters (a dot does not match a newline) for
the earliest offset at which the literal clip= is followed by a nonempty
greedy run of non-quote characters and a closing quote.  Returns the
captured group together with the remainder of the input after the whole
match, or none when no extension of the lazy part succeeds. -/
def findClip : List Char → Option (List Char × List Char)
  | [] => none
  | c :: rest =>
    let u := (c :: rest).drop CLIP_LIT.length
    let grp := u.takeWhile (fun ch => ch != '"')
    if litMatch CLIP_LIT (c :: rest) = true ∧ grp ≠ [] ∧ u.drop grp.length ≠ [] then
      some (grp, (u.drop grp.length).drop 1)
    else if c = '\n' then none
    else findClip rest

/-- re.findall of CLIP_URL_REGEX_PATTERN over the input: scan left to
right for the literal opening of the pattern, attempt the rest of the
match there via findClip, emit the captured group on success and resume
after the end of the match (matches do not overlap, exactly as in
re.findall); on failure resume one character further on.  As with
pyReplaceAux the recursion is driven by a fuel argument so that the
definition is kernel-computable; every recursive call strictly shortens
the remaining input (findClip consumes at least the clip literal, the
captured group and the closing quote), so the initial fuel chosen in
reFindall is never exhausted (theorem reFindallAux_fuel below proves the
result does not depend on it). -/
def reFindallAux : Nat → List Char → List (List Char)
  | 0, _ => []
  | _ + 1, [] => []
  | fuel + 1, c :: rest =>
    if litMatch LITEBOX_LIT (c :: rest) = true then
      match findClip ((c :: rest).drop LITEBOX_LIT.length) with
      | some (grp, after) => grp :: reFindallAux fuel after
      | none => reFindallAux fuel rest
    else reFindallAux fuel rest

/-- re.findall of CLIP_URL_REGEX_PATTERN, as called in web_scraper.py
line 20. -/
def reFindall (s : List Char) : List (List Char) := reFindallAux s.length s

/-- The raw (not yet de-duplicated) capture groups found in the page
markup, in page order: matches in web_scraper.py line 20. -/
def raw_matches (html : List Char) : List (List Char) := reFindall html

/-- full_urls from web_scraper.py lines 23 to 25: each raw match is passed
through the replace call on line 24 (whose pattern and replacement are
both a single ampersand) and prefixed with the fixed clip-service base
URL. -/
def full_urls (html : List Char) : List (List Char) :=
  (raw_matches html).map
    (fun clip_id => TWITCH_CLIP_BASE_URL ++ pyReplace clip_id ['&'] ['&'])

/-- The seen-set comprehension of web_scraper.py lines 28 to 29: keep an
element when it is not in the set of elements already kept. -/
def dedupSeen {α : Type} [DecidableEq α] (seen : List α) : List α → List α
  | [] => []
  | x :: xs => if x ∈ seen then dedupSeen seen xs else x :: dedupSeen (x :: seen) xs

/-- extract_clip_urls_from_html from web_scraper.py lines 18 to 30. -/
def extract_clip_urls_from_html (html : List Char) : List (List Char) :=
  dedupSeen [] (full_urls html)

/-- First-seen-order de-duplication as the spec words it, stated
independently of the source: fold over the input and append an element to
the output when it has not been output yet. -/
def dedupe_preserve_order {α : Type} [DecidableEq α] (l : List α) : List α :=
  l.foldl (fun acc x => if x ∈ acc then acc else acc ++ [x]) []

/-- The number of occurrences of a url in a list of urls (used to state
that the extractor yields each url at most once). -/
def countOcc (u : List Char) (l : List (List Char)) : Nat :=
  (l.filter (fun v => v == u)).length

/-- TWITCHTRACKER_URL_TEMPLATE.format from constants.py lines 12 to 14. -/
def trackerTemplate (username date_str : String) : String :=
  "https://twitchtracker.com/" ++ username ++ "/clips#" ++ date_str ++ "-" ++ date_str

/-- construct_tracker_url from utils.py lines 14 to 18: a falsy (empty)
username yields None, every other username is interpolated verbatim into
the fixed template. -/
def construct_tracker_url (username date_str : String) : Option String :=
  if username = "" then none
  else some (trackerTemplate username date_str)

/-- The outcome of one call to download_clip (downloader.py lines 14 to
143), as the code itself distinguishes the cases: a zero return code of
the subprocess, a nonzero return code, a FileNotFoundError raised when
launching the downloader executable, or any other exception. -/
inductive DlOutcome where
  | ok
  | failExit
  | toolMissing
  | excOther
deriving DecidableEq, Repr

/-- The boolean value download_clip returns to its caller for each
outcome: True on a zero return code (line 101), False on a nonzero return
code (line 131), False on FileNotFoundError (line 139) and False on any
other exception (line 143). -/
def dlReturn : DlOutcome → Bool
  | DlOutcome.ok => true
  | _ => false

/-- The observable events of one process_request run (processing.py):
every status_callback invocation made by process_request itself or by
check_downloader_dependencies, the history_callback invocation, and a
marker for each call into download_clip carrying the url passed and the
outcome of that call.  Status lines emitted inside run_selenium_and_extract
and inside download_clip belong to those collaborators and are abstracted
behind their results. -/
inductive Event where
  | startingProcess
  | checkingDeps
  | depsFound
  | depsMissing
  | depsAbortMsg
  | invalidUsername
  | processAborted
  | constructedUrl
  | scrapeFailed
  | historyRecord (username : String)
  | noClipsFound
  | foundClips (n : Nat)
  | limitNotice (maxDownloads total : Nat)
  | outputDirAbort
  | usingOutputDir
  | startingDownloads (n : Nat)
  | downloadingClip (i total : Nat)
  | downloadCall (url : String) (outcome : DlOutcome)
  | processComplete
  | summarySuccess (count : Nat) (limitApplied : Bool) (maxDownloads : Nat)
  | summaryFailures (count : Nat)
  | processFinished
deriving DecidableEq, Repr

/-- Which events correspond to status_callback calls passing
is_error=True in processing.py and in check_downloader_dependencies
(downloader.py lines 150 to 154). -/
def eventIsError : Event → Bool
  | Event.depsMissing => true
  | Event.invalidUsername => true
  | Event.scrapeFailed => true
  | _ => false

/-- The environment of one process_request run: the results the effectful
collaborators produce when called.  cmdExists is the check_command_exists
probe, scrape the run_selenium_and_extract result (none models the None
returned on a scraping failure), mkdirOk the
create_directory_if_not_exists result and dl the outcome of the i-th
download_clip call. -/
structure Env where
  cmdExists : Bool
  scrape : Option (List String)
  mkdirOk : Bool
  dl : Nat → DlOutcome

/-- check_downloader_dependencies from downloader.py lines 147 to 160,
returning its emitted events and its boolean result. -/
def check_downloader_dependencies (cmdExists : Bool) : List Event × Bool :=
  if cmdExists then ([Event.checkingDeps, Event.depsFound], true)
  else ([Event.checkingDeps, Event.depsMissing, Event.depsAbortMsg], false)

/-- The download loop of processing.py lines 82 to 90: for each url, in
order, emit the per-clip banner, call download_clip, and count the result
as downloaded on True and failed on False.  Returns the events and the
two counters. -/
def downloadLoop (dl : Nat → DlOutcome) (total : Nat) : Nat → List String → List Event × Nat × Nat
  | _, [] => ([], 0, 0)
  | i, url :: rest =>
    let outcome := dl i
    let r := downloadLoop dl total (i + 1) rest
    (Event.downloadingClip i total :: Event.downloadCall url outcome :: r.1,
     (if dlReturn outcome then r.2.1 + 1 else r.2.1),
     (if dlReturn outcome then r.2.2 else r.2.2 + 1))

/-- process_request from processing.py lines 13 to 109, as the list of
events one run emits.  The control flow mirrors the source step by step:
dependency check with early return, url construction with early return on
a falsy username, scrape with early return on None, history callback,
early return on an empty clip list, limit application, output directory
creation with early return, the sequential download loop, and the final
summary whose success line reports the downloaded count and whether the
limit was applied, followed by the failure line only when fail_count is
positive. -/
def process_request (username date_str : String) (max_downloads : Nat) (env : Env) : List Event :=
  Event.startingProcess ::
  (let dep := check_downloader_dependencies env.cmdExists
   dep.1 ++
   (if dep.2 = false then []
    else
      match construct_tracker_url username date_str with
      | none => [Event.invalidUsername, Event.processAborted]
      | some _ =>
        Event.constructedUrl ::
        (match env.scrape with
         | none => [Event.scrapeFailed, Event.processAborted]
         | some clip_urls =>
           Event.historyRecord username ::
           (if clip_urls = [] then [Event.noClipsFound]
            else
              let total_found := clip_urls.length
              Event.foundClips total_found ::
              (let pair :=
                 if max_downloads > 0 ∧ total_found > max_downloads then
                   (clip_urls.take max_downloads, true)
                 else (clip_urls, false)
               (if pair.2 then [Event.limitNotice max_downloads total_found] else []) ++
               (if env.mkdirOk = false then [Event.outputDirAbort]
                else
                  Event.usingOutputDir ::
                  Event.startingDownloads pair.1.length ::
                  (let r := downloadLoop env.dl pair.1.length 0 pair.1
                   r.1 ++
                   Event.processComplete ::
                   Event.summarySuccess r.2.1 pair.2 max_downloads ::
                   ((if r.2.2 > 0 then [Event.summaryFailures r.2.2] else []) ++
                    [Event.processFinished]))))))))

/-- The urls passed to download_clip during a run, in call order. -/
def attemptedUrls : List Event → List String
  | [] => []
  | Event.downloadCall u _ :: tr => u :: attemptedUrls tr
  | _ :: tr => attemptedUrls tr

/-- How often the history callback was invoked during a run. -/
def historyCount : List Event → Nat
  | [] => 0
  | Event.historyRecord _ :: tr => historyCount tr + 1
  | _ :: tr => historyCount tr

/-- The limit-applied flags of the summary success lines of a run. -/
def summaryLimitFlags : List Event → List Bool
  | [] => []
  | Event.summarySuccess _ la _ :: tr => la :: summaryLimitFlags tr
  | _ :: tr => summaryLimitFlags tr

/-- The total downloaded count reported by the summary of a run. -/
def reportedDownloaded : List Event → Nat
  | [] => 0
  | Event.summarySuccess c _ _ :: tr => c + reportedDownloaded tr
  | _ :: tr => reportedDownloaded tr

/-- The total failed count reported by the summary of a run; zero when
the failure line was not emitted. -/
def reportedFailed : List Event → Nat
  | [] => 0
  | Event.summaryFailures c :: tr => c + reportedFailed tr
  | _ :: tr => reportedFailed tr

/-- ClipDownloadState from downloader.py lines 9 to 11: the throttle
state of one download invocation, initialised to minus one.  The
percentage is modelled as an exact rational. -/
structure ClipDownloadState where
  last_update_percent : ℚ
deriving DecidableEq

/-- One line of subprocess output as the loop of downloader.py lines 62
to 90 classifies it: a progress-detected line whose percentage parses to
the given value, a progress-detected line whose parse raises, or any
other line (empty lines and non-progress lines leave the state alone). -/
inductive OutLine where
  | progOk (percent : ℚ)
  | progFail
  | other

/-- One iteration of the stdout loop of downloader.py lines 62 to 90 on
an already classified line: a parsed progress line reports exactly when
the state is minus one or the percentage moved by at least one whole
point, and then stores the new percentage; a parse failure reports only
the first time (state minus one) and stores minus two; other lines do
nothing.  Returns the new state and whether a report was emitted. -/
def stepLine (state : ClipDownloadState) : OutLine → ClipDownloadState × Bool
  | OutLine.progOk p =>
    if state.last_update_percent = -1 ∨ |p - state.last_update_percent| ≥ 1 then
      (ClipDownloadState.mk p, true)
    else (state, false)
  | OutLine.progFail =>
    if state.last_update_percent = -1 then (ClipDownloadState.mk (-2), true)
    else (state, false)
  | OutLine.other => (state, false)

/-- The emission flags the loop produces for a list of lines, in order. -/
def runLines (state : ClipDownloadState) : List OutLine → List Bool
  | [] => []
  | l :: ls =>
    let r := stepLine state l
    r.2 :: runLines r.1 ls

/-- The throttle state after processing a list of lines. -/
def finalState (state : ClipDownloadState) : List OutLine → ClipDownloadState
  | [] => state
  | l :: ls => finalState (stepLine state l).1 ls

/-- The percentage of the most recent emitted parsed progress report,
none while no parsed progress line has been reported yet. -/
def lastReported (state : ClipDownloadState) (rep : Option ℚ) : List OutLine → Option ℚ
  | [] => rep
  | l :: ls =>
    let r := stepLine state l
    lastReported r.1
      (match l, r.2 with
       | OutLine.progOk p, true => some p
       | _, _ => rep) ls

/-- Markup in which two lightbox attributes reference the same clip id
but differ in query parameters placed after the id: the capture group of
CLIP_URL_REGEX_PATTERN includes those parameters. -/
def htmlSameIdQueryAfter : List Char :=
  "data-litebox=\"/e?clip=abc?t=1\" data-litebox=\"/e?clip=abc?t=2\"".toList

/-- Markup in which two lightbox attributes reference the same clip id
and differ only in query parameters placed before the clip marker. -/
def htmlSameIdQueryBefore : List Char :=
  "data-litebox=\"/e?a=1&clip=abc\" data-litebox=\"/e?a=2&clip=abc\"".toList

/-- Markup whose captured clip identifier contains an HTML entity escape
of an ampersand. -/
def htmlEntityEscaped : List Char :=
  "data-litebox=\"?clip=abc&amp;t=1\"".toList

/-- A run environment in which the first download_clip call raises
FileNotFoundError (the downloader executable disappeared after the
initial dependency check) while a second clip is still pending. -/
def envToolVanishes : Env :=
  Env.mk true (some ["https://clips.twitch.tv/a", "https://clips.twitch.tv/b"]) true
    (fun i => if i = 0 then DlOutcome.toolMissing else DlOutcome.ok)

/-- A small concrete run environment used to instantiate the universally
quantified theorems: three clips scraped, the second download fails. -/
def envThreeClips : Env :=
  Env.mk true (some ["https://clips.twitch.tv/a", "https://clips.twitch.tv/b",
    "https://clips.twitch.tv/c"]) true
    (fun i => if i = 1 then DlOutcome.failExit else DlOutcome.ok)

/-- A run environment whose scrape succeeds with an empty clip list. -/
def envNoClips : Env := Env.mk true (some []) true (fun _ => DlOutcome.ok)

/-! ### Helper lemmas about the de-duplication filter -/

theorem foldl_dedupSeen {α : Type} [DecidableEq α] (l : List α) :
    ∀ (acc seen : List α), (∀ x, x ∈ seen ↔ x ∈ acc) →
      l.foldl (fun acc x => if x ∈ acc then acc else acc ++ [x]) acc
        = acc ++ dedupSeen seen l := by
  induction l with
  | nil => intro acc seen _; simp [dedupSeen]
  | cons x xs ih =>
    intro acc seen h
    simp only [List.foldl_cons, dedupSeen]
    by_cases hx : x ∈ acc
    · rw [if_pos hx, if_pos ((h x).mpr hx)]
      exact ih acc seen h
    · rw [if_neg hx, if_neg (fun hs => hx ((h x).mp hs))]
      rw [ih (acc ++ [x]) (x :: seen) ?_]
      · simp
      · intro y
        simp only [List.mem_cons, List.mem_append, List.mem_singleton, h y]
        tauto

theorem dedupSeen_nodup {α : Type} [DecidableEq α] (l : List α) :
    ∀ seen : List α, (dedupSeen seen l).Nodup ∧ ∀ x ∈ dedupSeen seen l, x ∉ seen := by
  induction l with
  | nil => intro seen; simp [dedupSeen]
  | cons x xs ih =>
    intro seen
    simp only [dedupSeen]
    by_cases hx : x ∈ seen
    · rw [if_pos hx]
      exact ih seen
    · rw [if_neg hx]
      obtain ⟨h1, h2⟩ := ih (x :: seen)
      refine ⟨List.nodup_cons.mpr ⟨fun hm => (h2 x hm) (List.mem_cons_self x seen), h1⟩, ?_⟩
      intro y hy
      rcases List.mem_cons.mp hy with rfl | hy2
      · exact hx
      · exact fun hsy => h2 y hy2 (List.mem_cons_of_mem _ hsy)

/-- Matching a literal pattern needs at least as many characters as the
pattern has. -/
theorem litMatch_length : ∀ (p t : List Char), litMatch p t = true → p.length ≤ t.length := by
  intro p
  induction p with
  | nil => intro t _; simp
  | cons a as ih =>
    intro t hm
    cases t with
    | nil => simp [litMatch] at hm
    | cons b bs =>
      simp only [litMatch, Bool.and_eq_true, beq_iff_eq] at hm
      simpa using ih bs hm.2

/-- The fuel driving pyReplaceAux is irrelevant as soon as it covers the
length of the input, so pyReplace computes the fuel-free recursion. -/
theorem pyReplaceAux_fuel (old new : List Char) :
    ∀ (f1 : Nat) (s : List Char) (f2 : Nat), s.length ≤ f1 → s.length ≤ f2 →
      pyReplaceAux old new f1 s = pyReplaceAux old new f2 s := by
  intro f1
  induction f1 with
  | zero =>
    intro s f2 h1 _
    have hs : s = [] := List.eq_nil_of_length_eq_zero (Nat.le_zero.mp h1)
    subst hs
    cases f2 <;> rfl
  | succ f1 ih =>
    intro s f2 h1 h2
    cases s with
    | nil => cases f2 <;> rfl
    | cons c rest =>
      cases f2 with
      | zero => simp at h2
      | succ f2 =>
        rw [pyReplaceAux, pyReplaceAux]
        by_cases h : old ≠ [] ∧ litMatch old (c :: rest) = true
        · rw [if_pos h, if_pos h]
          have hpos : 0 < old.length := List.length_pos.mpr h.1
          have hlen : ((c :: rest).drop old.length).length ≤ rest.length := by
            simp only [List.length_drop, List.length_cons]
            omega
          rw [ih ((c :: rest).drop old.length) f2 (by simp at h1; omega) (by simp at h2; omega)]
        · rw [if_neg h, if_neg h]
          rw [ih rest f2 (by simp at h1; omega) (by simp at h2; omega)]

/-- A successful findClip consumes at least one character of its input. -/
theorem findClip_length : ∀ (t g r : List Char), findClip t = some (g, r) → r.length < t.length := by
  intro t
  induction t with
  | nil => intro g r hgr; simp [findClip] at hgr
  | cons a as ih =>
    intro g r hgr
    rw [findClip] at hgr
    split at hgr
    · have hr : r = ((((a :: as).drop CLIP_LIT.length).drop
          (((a :: as).drop CLIP_LIT.length).takeWhile (fun ch => ch != '"')).length).drop 1) := by
        injection hgr with hgr2
        injection hgr2 with hg hr
        exact hr.symm
      subst hr
      simp only [List.length_drop, List.length_cons]
      omega
    · split at hgr
      · simp at hgr
      · have := ih g r hgr
        simp only [List.length_cons]
        omega

/-- The fuel driving reFindallAux is irrelevant as soon as it covers the
length of the input, so reFindall computes the fuel-free recursion. -/
theorem reFindallAux_fuel :
    ∀ (f1 : Nat) (s : List Char) (f2 : Nat), s.length ≤ f1 → s.length ≤ f2 →
      reFindallAux f1 s = reFindallAux f2 s := by
  intro f1
  induction f1 with
  | zero =>
    intro s f2 h1 _
    have hs : s = [] := List.eq_nil_of_length_eq_zero (Nat.le_zero.mp h1)
    subst hs
    cases f2 <;> rfl
  | succ f1 ih =>
    intro s f2 h1 h2
    cases s with
    | nil => cases f2 <;> rfl
    | cons c rest =>
      cases f2 with
      | zero => simp at h2
      | succ f2 =>
        rw [reFindallAux, reFindallAux]
        by_cases h : litMatch LITEBOX_LIT (c :: rest) = true
        · rw [if_pos h, if_pos h]
          rcases hfc : findClip ((c :: rest).drop LITEBOX_LIT.length) with _ | ⟨grp, after⟩
          · simp only [hfc]
            exact ih rest f2 (by simp at h1; omega) (by simp at h2; omega)
          · have hlt := findClip_length _ _ _ hfc
            simp only [List.length_drop, List.length_cons] at hlt
            simp only [hfc]
            rw [ih after f2 (by simp at h1 ⊢; omega) (by simp at h2 ⊢; omega)]
        · rw [if_neg h, if_neg h]
          exact ih rest f2 (by simp at h1; omega) (by simp at h2; omega)

/-- The replace call of web_scraper.py line 24 is the identity: its
pattern and its replacement are the same one-character string. -/
theorem pyReplace_amp (s : List Char) : pyReplace s ['&'] ['&'] = s := by
  rw [pyReplace]
  generalize s.length = fuel
  induction fuel generalizing s with
  | zero => rfl
  | succ fuel ih =>
    cases s with
    | nil => rfl
    | cons c rest =>
      rw [pyReplaceAux]
      by_cases h : (['&'] : List Char) ≠ [] ∧ litMatch ['&'] (c :: rest) = true
      · rw [if_pos h]
        have hc : ('&' : Char) = c := by
          have h2 := h.2
          simp only [litMatch, Bool.and_eq_true, beq_iff_eq] at h2
          exact h2.1
        have hd : (c :: rest).drop (['&'] : List Char).length = rest := by simp
        rw [hd, ih rest, ← hc]
        rfl
      · rw [if_neg h, ih rest]

/-- In a duplicate-free list every member occurs exactly once. -/
theorem countOcc_eq_one : ∀ (l : List (List Char)) (u : List Char),
    l.Nodup → u ∈ l → countOcc u l = 1 := by
  intro l
  induction l with
  | nil => intro u _ hm; simp at hm
  | cons v rest ih =>
    intro u hn hm
    rw [countOcc, List.filter_cons]
    rcases List.mem_cons.mp hm with rfl | hmem
    · have hnot : u ∉ rest := (List.nodup_cons.mp hn).1
      have hfil : rest.filter (fun w => w == u) = [] := by
        rw [List.filter_eq_nil_iff]
        intro a ha
        simp only [beq_iff_eq]
        intro hau
        exact hnot (hau ▸ ha)
      simp [hfil]
    · have hvu : ¬(v == u) = true := by
        simp only [beq_iff_eq]
        intro hv
        exact (List.nodup_cons.mp hn).1 (hv ▸ hmem)
      rw [if_neg hvu]
      exact ih u (List.nodup_cons.mp hn).2 hmem

/-! ### Claims about the extractor and the url builder -/

/-- Claim C6: for every html input, the extractor output is the
first-seen-order de-duplication of the raw matched urls (the capture
groups in page order, decoded and prefixed, before the uniqueness
filter): it contains no duplicate urls and lists each url in the order of
its first occurrence in the markup. -/
theorem extract_eq_dedupe_preserve_order (html : List Char) :
    extract_clip_urls_from_html html = dedupe_preserve_order (full_urls html)
    ∧ (extract_clip_urls_from_html html).Nodup := by
  constructor
  · rw [extract_clip_urls_from_html, dedupe_preserve_order]
    rw [foldl_dedupSeen (full_urls html) [] [] (by simp)]
    simp
  · exact (dedupSeen_nodup (full_urls html) []).1

/-- Claim C5 (amended): whenever a url appears in the extractor output at
all, it appears there exactly once; in particular two lightbox attributes
whose captured identifiers coincide (the differing query parameters stand
before the clip marker) yield one url. -/
theorem extract_count_eq_one (html u : List Char)
    (h : u ∈ extract_clip_urls_from_html html) :
    countOcc u (extract_clip_urls_from_html html) = 1 :=
  countOcc_eq_one _ u (dedupSeen_nodup (full_urls html) []).1 h

theorem extract_count_eq_one_witness :
    "https://clips.twitch.tv/abc".toList ∈ extract_clip_urls_from_html htmlSameIdQueryBefore
    ∧ countOcc "https://clips.twitch.tv/abc".toList
        (extract_clip_urls_from_html htmlSameIdQueryBefore) = 1 :=
  ⟨by decide, extract_count_eq_one htmlSameIdQueryBefore _ (by decide)⟩

/-- Claim C5 (counterexample): two lightbox attributes referencing the
same clip id abc but differing in query parameters placed after the id
produce two distinct urls, because the capture group of
CLIP_URL_REGEX_PATTERN extends to the closing quote and so includes those
parameters. -/
theorem extract_same_id_two_urls :
    extract_clip_urls_from_html htmlSameIdQueryAfter
      = ["https://clips.twitch.tv/abc?t=1".toList, "https://clips.twitch.tv/abc?t=2".toList]
    ∧ "https://clips.twitch.tv/abc?t=1".toList ≠ "https://clips.twitch.tv/abc?t=2".toList := by
  constructor
  · decide
  · decide

/-- Claim C4 (code bug): the entity-decoding step of
extract_clip_urls_from_html is the identity, because the replace call on
web_scraper.py line 24 replaces an ampersand by an ampersand; a captured
identifier containing the html escape of an ampersand keeps that escape
in the returned url instead of the literal ampersand the comment on line
22 announces. -/
theorem extract_entity_not_decoded :
    (∀ s : List Char, pyReplace s ['&'] ['&'] = s)
    ∧ extract_clip_urls_from_html htmlEntityEscaped
        = ["https://clips.twitch.tv/abc&amp;t=1".toList]
    ∧ "https://clips.twitch.tv/abc&amp;t=1".toList ≠ "https://clips.twitch.tv/abc&t=1".toList :=
  ⟨pyReplace_amp, by decide, by decide⟩

/-- Claim C9 (counterexample): an account name full of characters that
break the target site url scheme (space, slash, hash, question mark) is
not rejected; it is interpolated verbatim into the returned url. -/
theorem construct_tracker_url_accepts_scheme_breaking :
    construct_tracker_url "bad user/#?" "20240101"
      = some "https://twitchtracker.com/bad user/#?/clips#20240101-20240101"
    ∧ construct_tracker_url "bad user/#?" "20240101" ≠ none := by
  constructor
  · decide
  · decide

/-- Claim C9 (amended): construct_tracker_url fails exactly on the empty
account name; every non-empty account name, whatever characters it
contains, is interpolated verbatim into the fixed template. -/
theorem construct_tracker_url_none_iff (username date_str : String) :
    (construct_tracker_url username date_str = none ↔ username = "")
    ∧ (username ≠ "" →
        construct_tracker_url username date_str = some (trackerTemplate username date_str)) := by
  constructor
  · constructor
    · intro h
      by_contra hne
      simp [construct_tracker_url, hne] at h
    · intro h
      simp [construct_tracker_url, h]
  · intro h
    simp [construct_tracker_url, h]

theorem construct_tracker_url_none_iff_witness :
    construct_tracker_url "foo" "20240101" = some (trackerTemplate "foo" "20240101") :=
  (construct_tracker_url_none_iff "foo" "20240101").2 (by decide)

/-! ### Helper lemmas about the download loop and the run trace -/

theorem attemptedUrls_append (a b : List Event) :
    attemptedUrls (a ++ b) = attemptedUrls a ++ attemptedUrls b := by
  induction a with
  | nil => rfl
  | cons e tr ih => cases e <;> simp [attemptedUrls, ih]

theorem historyCount_append (a b : List Event) :
    historyCount (a ++ b) = historyCount a + historyCount b := by
  induction a with
  | nil => simp [historyCount]
  | cons e tr ih => cases e <;> simp [historyCount, ih] <;> omega

theorem summaryLimitFlags_append (a b : List Event) :
    summaryLimitFlags (a ++ b) = summaryLimitFlags a ++ summaryLimitFlags b := by
  induction a with
  | nil => rfl
  | cons e tr ih => cases e <;> simp [summaryLimitFlags, ih]

theorem reportedDownloaded_append (a b : List Event) :
    reportedDownloaded (a ++ b) = reportedDownloaded a + reportedDownloaded b := by
  induction a with
  | nil => simp [reportedDownloaded]
  | cons e tr ih => cases e <;> simp [reportedDownloaded, ih] <;> omega

theorem reportedFailed_append (a b : List Event) :
    reportedFailed (a ++ b) = reportedFailed a + reportedFailed b := by
  induction a with
  | nil => simp [reportedFailed]
  | cons e tr ih => cases e <;> simp [reportedFailed, ih] <;> omega

theorem downloadLoop_attempted (dl : Nat → DlOutcome) (total : Nat) :
    ∀ (i : Nat) (urls : List String),
      attemptedUrls (downloadLoop dl total i urls).1 = urls := by
  intro i urls
  induction urls generalizing i with
  | nil => rfl
  | cons u rest ih => simp [downloadLoop, attemptedUrls, ih]

theorem downloadLoop_sum (dl : Nat → DlOutcome) (total : Nat) :
    ∀ (i : Nat) (urls : List String),
      (downloadLoop dl total i urls).2.1 + (downloadLoop dl total i urls).2.2 = urls.length := by
  intro i urls
  induction urls generalizing i with
  | nil => rfl
  | cons u rest ih =>
    simp only [downloadLoop, List.length_cons]
    by_cases h : dlReturn (dl i) = true
    · rw [if_pos h, if_pos h]
      have := ih (i + 1)
      omega
    · rw [if_neg h, if_neg h]
      have := ih (i + 1)
      omega

theorem downloadLoop_historyCount (dl : Nat → DlOutcome) (total : Nat) :
    ∀ (i : Nat) (urls : List String),
      historyCount (downloadLoop dl total i urls).1 = 0 := by
  intro i urls
  induction urls generalizing i with
  | nil => rfl
  | cons u rest ih => simp [downloadLoop, historyCount, ih]

theorem downloadLoop_summaryLimitFlags (dl : Nat → DlOutcome) (total : Nat) :
    ∀ (i : Nat) (urls : List String),
      summaryLimitFlags (downloadLoop dl total i urls).1 = [] := by
  intro i urls
  induction urls generalizing i with
  | nil => rfl
  | cons u rest ih => simp [downloadLoop, summaryLimitFlags, ih]

theorem downloadLoop_reportedDownloaded (dl : Nat → DlOutcome) (total : Nat) :
    ∀ (i : Nat) (urls : List String),
      reportedDownloaded (downloadLoop dl total i urls).1 = 0 := by
  intro i urls
  induction urls generalizing i with
  | nil => rfl
  | cons u rest ih => simp [downloadLoop, reportedDownloaded, ih]

theorem downloadLoop_reportedFailed (dl : Nat → DlOutcome) (total : Nat) :
    ∀ (i : Nat) (urls : List String),
      reportedFailed (downloadLoop dl total i urls).1 = 0 := by
  intro i urls
  induction urls generalizing i with
  | nil => rfl
  | cons u rest ih => simp [downloadLoop, reportedFailed, ih]

theorem process_request_attempted (username date_str : String) (max_downloads : Nat) (env : Env)
    (l : List String) (hdep : env.cmdExists = true) (huser : username ≠ "")
    (hscrape : env.scrape = some l) (hmk : env.mkdirOk = true) :
    attemptedUrls (process_request username date_str max_downloads env)
      = if max_downloads > 0 ∧ l.length > max_downloads then l.take max_downloads else l := by
  by_cases hne : l = []
  · subst hne
    simp [process_request, check_downloader_dependencies, construct_tracker_url, hdep, huser,
      hscrape, attemptedUrls]
  · by_cases hc : max_downloads > 0 ∧ l.length > max_downloads
    · simp [process_request, check_downloader_dependencies, construct_tracker_url, hdep, huser,
        hscrape, hmk, hne, hc, attemptedUrls, attemptedUrls_append,
        downloadLoop_attempted, apply_ite attemptedUrls]
    · simp [process_request, check_downloader_dependencies, construct_tracker_url, hdep, huser,
        hscrape, hmk, hne, hc, attemptedUrls, attemptedUrls_append,
        downloadLoop_attempted, apply_ite attemptedUrls]

theorem process_request_counts (username date_str : String) (max_downloads : Nat) (env : Env)
    (l : List String) (hdep : env.cmdExists = true) (huser : username ≠ "")
    (hscrape : env.scrape = some l) (hmk : env.mkdirOk = true) :
    reportedDownloaded (process_request username date_str max_downloads env)
      + reportedFailed (process_request username date_str max_downloads env)
      = (if max_downloads > 0 ∧ l.length > max_downloads then l.take max_downloads
         else l).length := by
  by_cases hne : l = []
  · subst hne
    simp [process_request, check_downloader_dependencies, construct_tracker_url, hdep, huser,
      hscrape, reportedDownloaded, reportedFailed]
  · by_cases hc : max_downloads > 0 ∧ l.length > max_downloads
    · have hsum := downloadLoop_sum env.dl (l.take max_downloads).length 0 (l.take max_downloads)
      simp only [List.length_take] at hsum
      simp [process_request, check_downloader_dependencies, construct_tracker_url, hdep, huser,
        hscrape, hmk, hne, hc, reportedDownloaded, reportedFailed, reportedDownloaded_append,
        reportedFailed_append, downloadLoop_reportedDownloaded, downloadLoop_reportedFailed,
        apply_ite reportedDownloaded, apply_ite reportedFailed]
      split <;> omega
    · have hsum := downloadLoop_sum env.dl l.length 0 l
      simp [process_request, check_downloader_dependencies, construct_tracker_url, hdep, huser,
        hscrape, hmk, hne, hc, reportedDownloaded, reportedFailed, reportedDownloaded_append,
        reportedFailed_append, downloadLoop_reportedDownloaded, downloadLoop_reportedFailed,
        apply_ite reportedDownloaded, apply_ite reportedFailed]
      split <;> omega

theorem process_request_flags (username date_str : String) (max_downloads : Nat) (env : Env)
    (l : List String) (hdep : env.cmdExists = true) (huser : username ≠ "")
    (hscrape : env.scrape = some l) (hmk : env.mkdirOk = true) (hne : l ≠ []) :
    summaryLimitFlags (process_request username date_str max_downloads env)
      = [decide (max_downloads > 0 ∧ l.length > max_downloads)] := by
  by_cases hc : max_downloads > 0 ∧ l.length > max_downloads
  · simp [process_request, check_downloader_dependencies, construct_tracker_url, hdep, huser,
      hscrape, hmk, hne, hc, summaryLimitFlags, summaryLimitFlags_append,
      downloadLoop_summaryLimitFlags, apply_ite summaryLimitFlags]
  · simp [process_request, check_downloader_dependencies, construct_tracker_url, hdep, huser,
      hscrape, hmk, hne, hc, summaryLimitFlags, summaryLimitFlags_append,
      downloadLoop_summaryLimitFlags, apply_ite summaryLimitFlags]

theorem process_request_historyCount (username date_str : String) (max_downloads : Nat)
    (env : Env) :
    historyCount (process_request username date_str max_downloads env)
      = if env.cmdExists = true ∧ username ≠ "" ∧ env.scrape ≠ none then 1 else 0 := by
  by_cases h1 : env.cmdExists = true
  · by_cases h2 : username = ""
    · simp [process_request, check_downloader_dependencies, construct_tracker_url, h1, h2,
        historyCount]
    · rcases hs : env.scrape with _ | l
      · simp [process_request, check_downloader_dependencies, construct_tracker_url, h1, h2, hs,
          historyCount]
      · simp [process_request, check_downloader_dependencies, construct_tracker_url, h1, h2, hs,
          historyCount, historyCount_append, downloadLoop_historyCount, apply_ite historyCount]
  · have h1f : env.cmdExists = false := by revert h1; cases env.cmdExists <;> simp
    simp [process_request, check_downloader_dependencies, h1f, historyCount]

/-! ### Claims about the orchestration of a run -/

/-- Claim C2: when the run reaches the download phase with a discovered
list of length n, a configured max of zero yields n download attempts; a
positive max yields exactly the first min(n, max) discovered urls as
attempts, in discovery order, and the limit-applied flag of the summary
is true exactly when n exceeds max. -/
theorem download_limit_rule (username date_str : String) (max_downloads : Nat) (env : Env)
    (l : List String) (hdep : env.cmdExists = true) (huser : username ≠ "")
    (hscrape : env.scrape = some l) (hmk : env.mkdirOk = true) :
    (max_downloads = 0 →
        attemptedUrls (process_request username date_str max_downloads env) = l)
    ∧ (max_downloads > 0 →
        attemptedUrls (process_request username date_str max_downloads env)
          = l.take (min l.length max_downloads))
    ∧ (max_downloads > 0 → l ≠ [] →
        summaryLimitFlags (process_request username date_str max_downloads env)
          = [decide (l.length > max_downloads)]) := by
  have ha := process_request_attempted username date_str max_downloads env l hdep huser hscrape hmk
  refine ⟨?_, ?_, ?_⟩
  · intro h0
    rw [ha]
    simp [h0]
  · intro hpos
    rw [ha]
    by_cases hgt : l.length > max_downloads
    · rw [if_pos ⟨hpos, hgt⟩]
      have hm : min l.length max_downloads = max_downloads := by omega
      rw [hm]
    · rw [if_neg (by tauto)]
      have hm : min l.length max_downloads = l.length := by omega
      rw [hm, List.take_length]
  · intro hpos hne
    rw [process_request_flags username date_str max_downloads env l hdep huser hscrape hmk hne]
    have : (max_downloads > 0 ∧ l.length > max_downloads) ↔ l.length > max_downloads := by tauto
    simp only [List.cons.injEq, and_true]
    exact decide_eq_decide.mpr this

theorem download_limit_rule_witness :
    attemptedUrls (process_request "streamer" "20240101" 2 envThreeClips)
      = (["https://clips.twitch.tv/a", "https://clips.twitch.tv/b",
          "https://clips.twitch.tv/c"] : List String).take
          (min (["https://clips.twitch.tv/a", "https://clips.twitch.tv/b",
            "https://clips.twitch.tv/c"] : List String).length 2) :=
  (download_limit_rule "streamer" "20240101" 2 envThreeClips _ rfl (by decide) rfl rfl).2.1
    (by decide)

/-- Claim C3: when the run reaches the download phase with a discovered
list of length n, the summary counts balance: reported downloaded plus
reported failed equals min(n, limit) for a positive limit and n
otherwise, because every attempted clip is counted in exactly one of the
two counters. -/
theorem downloaded_plus_failed (username date_str : String) (max_downloads : Nat) (env : Env)
    (l : List String) (hdep : env.cmdExists = true) (huser : username ≠ "")
    (hscrape : env.scrape = some l) (hmk : env.mkdirOk = true) :
    reportedDownloaded (process_request username date_str max_downloads env)
      + reportedFailed (process_request username date_str max_downloads env)
      = if max_downloads > 0 then min l.length max_downloads else l.length := by
  rw [process_request_counts username date_str max_downloads env l hdep huser hscrape hmk]
  by_cases h1 : max_downloads > 0 ∧ l.length > max_downloads
  · rw [if_pos h1, if_pos h1.1]
    simp only [List.length_take]
    omega
  · rw [if_neg h1]
    by_cases h2 : max_downloads > 0
    · rw [if_pos h2]
      have h3 : ¬ l.length > max_downloads := fun hgt => h1 ⟨h2, hgt⟩
      omega
    · rw [if_neg h2]

theorem downloaded_plus_failed_witness :
    reportedDownloaded (process_request "streamer" "20240101" 2 envThreeClips)
      + reportedFailed (process_request "streamer" "20240101" 2 envThreeClips)
      = if 2 > 0 then
          min (["https://clips.twitch.tv/a", "https://clips.twitch.tv/b",
            "https://clips.twitch.tv/c"] : List String).length 2
        else (["https://clips.twitch.tv/a", "https://clips.twitch.tv/b",
          "https://clips.twitch.tv/c"] : List String).length :=
  downloaded_plus_failed "streamer" "20240101" 2 envThreeClips _ rfl (by decide) rfl rfl

/-- Claim C7: the history callback fires exactly once whenever the scrape
returns a list (even an empty one), never when the scrape fails, and in
no run more than once. -/
theorem history_recorded_once (username date_str : String) (max_downloads : Nat) (env : Env) :
    (env.cmdExists = true → username ≠ "" → ∀ l, env.scrape = some l →
        historyCount (process_request username date_str max_downloads env) = 1)
    ∧ (env.scrape = none →
        historyCount (process_request username date_str max_downloads env) = 0)
    ∧ historyCount (process_request username date_str max_downloads env) ≤ 1 := by
  have h := process_request_historyCount username date_str max_downloads env
  refine ⟨?_, ?_, ?_⟩
  · intro h1 h2 l hs
    rw [h]
    simp [h1, h2, hs]
  · intro hs
    rw [h]
    simp [hs]
  · rw [h]
    split <;> omega

theorem history_recorded_once_witness :
    historyCount (process_request "streamer" "20240101" 0 envThreeClips) = 1 :=
  (history_recorded_once "streamer" "20240101" 0 envThreeClips).1 rfl (by decide) _ rfl

/-- Claim C8: a successful scrape that finds no clips makes the run end
with the no-clips summary line, which is not an error, and the downloader
is never invoked: the full trace is the six-event finished run. -/
theorem no_clips_finishes_without_downloader (username date_str : String) (max_downloads : Nat)
    (env : Env) (hdep : env.cmdExists = true) (huser : username ≠ "")
    (hscrape : env.scrape = some []) :
    process_request username date_str max_downloads env
      = [Event.startingProcess, Event.checkingDeps, Event.depsFound, Event.constructedUrl,
         Event.historyRecord username, Event.noClipsFound]
    ∧ eventIsError Event.noClipsFound = false
    ∧ attemptedUrls (process_request username date_str max_downloads env) = [] := by
  have ht : process_request username date_str max_downloads env
      = [Event.startingProcess, Event.checkingDeps, Event.depsFound, Event.constructedUrl,
         Event.historyRecord username, Event.noClipsFound] := by
    simp [process_request, check_downloader_dependencies, construct_tracker_url, hdep, huser,
      hscrape]
  refine ⟨ht, rfl, ?_⟩
  rw [ht]
  rfl

theorem no_clips_finishes_without_downloader_witness :
    process_request "streamer" "20240101" 0 envNoClips
      = [Event.startingProcess, Event.checkingDeps, Event.depsFound, Event.constructedUrl,
         Event.historyRecord "streamer", Event.noClipsFound]
    ∧ eventIsError Event.noClipsFound = false
    ∧ attemptedUrls (process_request "streamer" "20240101" 0 envNoClips) = [] :=
  no_clips_finishes_without_downloader "streamer" "20240101" 0 envNoClips rfl (by decide) rfl

/-- Claim C1 (counterexample): a run of two clips in which the first
download fails because the downloader executable is not found still
attempts the second clip, and download_clip returns for the missing
executable the same boolean an ordinary per-clip failure returns, so
nothing stops the remaining downloads. -/
theorem tool_missing_does_not_stop_run :
    attemptedUrls (process_request "streamer" "20240101" 0 envToolVanishes)
      = ["https://clips.twitch.tv/a", "https://clips.twitch.tv/b"]
    ∧ envToolVanishes.dl 0 = DlOutcome.toolMissing
    ∧ dlReturn DlOutcome.toolMissing = dlReturn DlOutcome.failExit :=
  ⟨by decide, rfl, rfl⟩

/-- Claim C1 (amended): a download that fails because the executable is
not found is reported with its own error message inside download_clip but
is returned to the loop as the same failure value as an ordinary per-clip
failure, and the run still attempts every remaining selected clip. -/
theorem tool_missing_counted_as_failure (username date_str : String) (max_downloads : Nat)
    (env : Env) (l : List String) (i : Nat)
    (hdep : env.cmdExists = true) (huser : username ≠ "") (hscrape : env.scrape = some l)
    (hmk : env.mkdirOk = true) (hi : env.dl i = DlOutcome.toolMissing) :
    dlReturn (env.dl i) = dlReturn DlOutcome.failExit
    ∧ attemptedUrls (process_request username date_str max_downloads env)
        = (if max_downloads > 0 ∧ l.length > max_downloads then l.take max_downloads else l) :=
  ⟨by rw [hi]; rfl, process_request_attempted username date_str max_downloads env l hdep huser
    hscrape hmk⟩

theorem tool_missing_counted_as_failure_witness :
    dlReturn (envToolVanishes.dl 0) = dlReturn DlOutcome.failExit
    ∧ attemptedUrls (process_request "streamer" "20240101" 0 envToolVanishes)
        = (if 0 > 0 ∧ (["https://clips.twitch.tv/a", "https://clips.twitch.tv/b"] :
              List String).length > 0
           then (["https://clips.twitch.tv/a", "https://clips.twitch.tv/b"] :
              List String).take 0
           else ["https://clips.twitch.tv/a", "https://clips.twitch.tv/b"]) :=
  tool_missing_counted_as_failure "streamer" "20240101" 0 envToolVanishes
    ["https://clips.twitch.tv/a", "https://clips.twitch.tv/b"] 0 rfl (by decide) rfl rfl rfl

/-! ### The progress throttle of download_clip -/

theorem runLines_cons (st : ClipDownloadState) (x : OutLine) (xs : List OutLine) :
    runLines st (x :: xs) = (stepLine st x).2 :: runLines (stepLine st x).1 xs := rfl

theorem runLines_append (a b : List OutLine) :
    ∀ st : ClipDownloadState, runLines st (a ++ b) = runLines st a ++ runLines (finalState st a) b := by
  induction a with
  | nil => intro st; rfl
  | cons x xs ih =>
    intro st
    simp only [List.cons_append, runLines_cons, finalState, ih]

theorem runLines_length (ls : List OutLine) :
    ∀ st : ClipDownloadState, (runLines st ls).length = ls.length := by
  induction ls with
  | nil => intro st; rfl
  | cons x xs ih => intro st; simp [runLines_cons, ih]

/-- While no parsed progress line has been seen, the throttle state stays
at one of its two sentinel values. -/
theorem finalState_no_progOk (pre : List OutLine) :
    ∀ st : ClipDownloadState,
      (∀ q : ℚ, OutLine.progOk q ∉ pre) →
      (st.last_update_percent = -1 ∨ st.last_update_percent = -2) →
      ((finalState st pre).last_update_percent = -1
        ∨ (finalState st pre).last_update_percent = -2) := by
  induction pre with
  | nil => intro st _ h; simpa [finalState] using h
  | cons x xs ih =>
    intro st hno h
    cases x with
    | progOk p => exact absurd (List.mem_cons_self _ _) (hno p)
    | progFail =>
      by_cases hcond : st.last_update_percent = -1
      · simp only [finalState, stepLine, if_pos hcond]
        exact ih (ClipDownloadState.mk (-2)) (fun q hq => hno q (List.mem_cons_of_mem _ hq))
          (Or.inr rfl)
      · simp only [finalState, stepLine, if_neg hcond]
        exact ih st (fun q hq => hno q (List.mem_cons_of_mem _ hq)) h
    | other =>
      simp only [finalState, stepLine]
      exact ih st (fun q hq => hno q (List.mem_cons_of_mem _ hq)) h

/-- Once a parsed progress line has been reported (or from any state in
the reported region), the stored percentage is exactly the percentage of
the most recent report and is nonnegative. -/
theorem lastReported_after_progOk (pre : List OutLine) :
    ∀ (st : ClipDownloadState) (rep : Option ℚ),
      (∀ p : ℚ, OutLine.progOk p ∈ pre → 0 ≤ p) →
      ((st.last_update_percent = -1 ∧ rep = none)
        ∨ (st.last_update_percent = -2 ∧ rep = none)
        ∨ (rep = some st.last_update_percent ∧ 0 ≤ st.last_update_percent)) →
      ((∃ q : ℚ, OutLine.progOk q ∈ pre)
        ∨ (rep = some st.last_update_percent ∧ 0 ≤ st.last_update_percent)) →
      lastReported st rep pre = some (finalState st pre).last_update_percent
        ∧ 0 ≤ (finalState st pre).last_update_percent := by
  induction pre with
  | nil =>
    intro st rep _ _ htrig
    rcases htrig with ⟨q, hq⟩ | hgood
    · simp at hq
    · simpa [lastReported, finalState] using hgood
  | cons x xs ih =>
    intro st rep hnn hinv htrig
    have hnn2 : ∀ p : ℚ, OutLine.progOk p ∈ xs → 0 ≤ p :=
      fun p hp => hnn p (List.mem_cons_of_mem _ hp)
    cases x with
    | progOk p =>
      have hp : 0 ≤ p := hnn p (List.mem_cons_self _ _)
      by_cases hcond : st.last_update_percent = -1 ∨ |p - st.last_update_percent| ≥ 1
      · simp only [lastReported, finalState, stepLine, if_pos hcond]
        exact ih (ClipDownloadState.mk p) (some p) hnn2 (Or.inr (Or.inr ⟨rfl, hp⟩))
          (Or.inr ⟨rfl, hp⟩)
      · have hgood : rep = some st.last_update_percent ∧ 0 ≤ st.last_update_percent := by
          rcases hinv with ⟨h1, _⟩ | ⟨h1, _⟩ | hgood
          · exact absurd (Or.inl h1) hcond
          · exfalso
            apply hcond
            right
            rw [h1]
            rw [show p - (-2 : ℚ) = p + 2 by ring]
            rw [abs_of_nonneg (by linarith)]
            linarith
          · exact hgood
        simp only [lastReported, finalState, stepLine, if_neg hcond]
        exact ih st rep hnn2 (Or.inr (Or.inr hgood)) (Or.inr hgood)
    | progFail =>
      by_cases hcond : st.last_update_percent = -1
      · have hrep : rep = none := by
          rcases hinv with ⟨_, h2⟩ | ⟨_, h2⟩ | ⟨_, hge⟩
          · exact h2
          · exact h2
          · rw [hcond] at hge; norm_num at hge
        have htrig2 : ∃ q : ℚ, OutLine.progOk q ∈ xs := by
          rcases htrig with ⟨q, hq⟩ | hgood
          · rcases List.mem_cons.mp hq with h | h
            · exact absurd h (by simp)
            · exact ⟨q, h⟩
          · rw [hrep] at hgood
            exact Option.noConfusion hgood.1
        simp only [lastReported, finalState, stepLine, if_pos hcond]
        exact ih (ClipDownloadState.mk (-2)) rep hnn2 (Or.inr (Or.inl ⟨rfl, hrep⟩))
          (Or.inl htrig2)
      · simp only [lastReported, finalState, stepLine, if_neg hcond]
        refine ih st rep hnn2 hinv ?_
        rcases htrig with ⟨q, hq⟩ | hgood
        · rcases List.mem_cons.mp hq with h | h
          · exact absurd h (by simp)
          · exact Or.inl ⟨q, h⟩
        · exact Or.inr hgood
    | other =>
      simp only [lastReported, finalState, stepLine]
      refine ih st rep hnn2 hinv ?_
      rcases htrig with ⟨q, hq⟩ | hgood
      · rcases List.mem_cons.mp hq with h | h
        · exact absurd h (by simp)
        · exact Or.inl ⟨q, h⟩
      · exact Or.inr hgood

/-- Claim C10: for any sequence of classified subprocess output lines
with nonnegative parsed percentages, the first successfully parsed
progress line always emits a report, and a later parsed progress line
emits only when its percentage differs from the percentage of the last
emitted parsed report by at least one whole point. -/
theorem progress_throttling (ls : List OutLine)
    (hnn : ∀ p : ℚ, OutLine.progOk p ∈ ls → 0 ≤ p) :
    (∀ (pre post : List OutLine) (p : ℚ), ls = pre ++ OutLine.progOk p :: post →
        (∀ q : ℚ, OutLine.progOk q ∉ pre) →
        (runLines (ClipDownloadState.mk (-1)) ls)[pre.length]? = some true)
    ∧ (∀ (pre post : List OutLine) (p : ℚ), ls = pre ++ OutLine.progOk p :: post →
        (∃ q : ℚ, OutLine.progOk q ∈ pre) →
        (runLines (ClipDownloadState.mk (-1)) ls)[pre.length]? = some true →
        ∃ r : ℚ, lastReported (ClipDownloadState.mk (-1)) none pre = some r
          ∧ |p - r| ≥ 1) := by
  have hsplit : ∀ (pre post : List OutLine) (p : ℚ), ls = pre ++ OutLine.progOk p :: post →
      (runLines (ClipDownloadState.mk (-1)) ls)[pre.length]?
        = some (stepLine (finalState (ClipDownloadState.mk (-1)) pre) (OutLine.progOk p)).2 := by
    intro pre post p heq
    rw [heq, runLines_append]
    rw [List.getElem?_append_right (by simp [runLines_length])]
    simp [runLines_length, runLines_cons]
  constructor
  · intro pre post p heq hno
    rw [hsplit pre post p heq]
    have hp : 0 ≤ p := hnn p (by rw [heq]; exact List.mem_append_right _ (List.mem_cons_self _ _))
    have hfin := finalState_no_progOk pre (ClipDownloadState.mk (-1)) hno (Or.inl rfl)
    rcases hfin with h | h
    · simp [stepLine, h]
    · have habs : |p - (finalState (ClipDownloadState.mk (-1)) pre).last_update_percent| ≥ 1 := by
        rw [h]
        rw [show p - (-2 : ℚ) = p + 2 by ring]
        rw [abs_of_nonneg (by linarith)]
        linarith
      simp [stepLine, habs]
  · intro pre post p heq hex hemit
    have hlr := lastReported_after_progOk pre (ClipDownloadState.mk (-1)) none
      (fun q hq => hnn q (by rw [heq]; exact List.mem_append_left _ hq))
      (Or.inl ⟨rfl, rfl⟩) (Or.inl hex)
    refine ⟨(finalState (ClipDownloadState.mk (-1)) pre).last_update_percent, hlr.1, ?_⟩
    rw [hsplit pre post p heq] at hemit
    by_cases hcond : (finalState (ClipDownloadState.mk (-1)) pre).last_update_percent = -1
        ∨ |p - (finalState (ClipDownloadState.mk (-1)) pre).last_update_percent| ≥ 1
    · rcases hcond with h1 | h2
      · exfalso
        have := hlr.2
        rw [h1] at this
        norm_num at this
      · exact h2
    · exfalso
      simp [stepLine, if_neg hcond] at hemit

theorem progress_throttling_witness :
    (runLines (ClipDownloadState.mk (-1))
        [OutLine.progFail, OutLine.progOk 50, OutLine.progOk 52])[1]? = some true := by
  have h := (progress_throttling [OutLine.progFail, OutLine.progOk 50, OutLine.progOk 52] ?_).1
    [OutLine.progFail] [OutLine.progOk 52] 50 rfl ?_
  · exact h
  · intro p hp
    simp only [List.mem_cons, List.not_mem_nil, or_false] at hp
    rcases hp with h1 | h1 | h1
    · exact absurd h1 (by simp)
    · injection h1 with h2
      rw [h2]
      norm_num
    · injection h1 with h2
      rw [h2]
      norm_num
  · intro q hq
    rcases List.mem_singleton.mp hq with h
    exact absurd h (by simp)

end TwitchClipHelper
